import Mathlib

/-!
Verification of the connection-lifecycle and messaging core of the
bond_book backend.  The definitions below are a shallow embedding of the
JavaScript source: Mongo collections become lists of records, a growing
counter supplies fresh document ids and timestamps, and each controller
becomes a pure function from a database state to a result paired with the
successor state.  Socket emissions are recorded in an event log.
-/

namespace BondBook

/-- Status of a follow request (`followRequestModel.js`): enum
pending/accepted/rejected, default pending. -/
inductive ReqStatus
  | pending
  | accepted
  | rejected
deriving DecidableEq, Repr

/-- A user document: opaque string id, username, and the
following/followers id arrays that `toggleFollow`/`acceptFollowRequest`
mutate. -/
structure UserDoc where
  uid       : String
  username  : String
  following : List String
  followers : List String
deriving DecidableEq, Repr

/-- A FollowRequest document (`followRequestModel.js`): requester,
recipient, status.  A unique index on (requester, recipient) keeps at most
one request per ordered pair. -/
structure FollowRequestDoc where
  rid       : Nat
  requester : String
  recipient : String
  status    : ReqStatus
deriving DecidableEq, Repr

/-- A MutualConnection document (`mutualConnectionModel.js`): the two
members, the canonical `connectionId`, display name and active flag. -/
structure MutualConnectionDoc where
  mid          : Nat
  user1        : String
  user2        : String
  connectionId : String
  displayName  : String
  isActive     : Bool
deriving DecidableEq, Repr

/-- A Message document (message schema): owning mutual connection, sender,
receiver, content, type, read state and creation time. -/
structure MessageDoc where
  msgId            : Nat
  mutualConnection : Nat
  sender           : String
  receiver         : String
  content          : String
  messageType      : String
  isRead           : Bool
  readAt           : Option Nat
  createdAt        : Nat
deriving DecidableEq, Repr

/-- A Notification document (`notificationModel.js`): target user, source
user, type and message text. -/
structure NotificationDoc where
  target   : String
  fromUser : String
  kind     : String
  message  : String
deriving DecidableEq, Repr

/-- A socket.io destination: a user's personal room `user_<id>` or a
conversation room `conversation_<roomId>`. -/
inductive Channel
  | personal (userId : String)
  | conversation (roomId : String)
deriving DecidableEq, Repr

/-- One recorded socket emission. -/
structure EmitEvent where
  channel : Channel
  event   : String
  msgId   : Nat
deriving DecidableEq, Repr

/-- The persistent state: each Mongo collection as a list, a socket event
log, and a counter supplying fresh document ids and timestamps. -/
structure DB where
  users         : List UserDoc
  requests      : List FollowRequestDoc
  connections   : List MutualConnectionDoc
  messages      : List MessageDoc
  notifications : List NotificationDoc
  events        : List EmitEvent
  nextId        : Nat
deriving DecidableEq, Repr

/-- The error taxonomy used by the controllers. -/
inductive ApiError
  | invalidArgument
  | unauthorized
  | forbidden
  | notFound
  | conflict
  | invalidState
deriving DecidableEq, Repr

/-- HTTP status code each error is reported with. -/
def ApiError.toStatus : ApiError → Nat
  | ApiError.invalidArgument => 400
  | ApiError.unauthorized => 401
  | ApiError.forbidden => 403
  | ApiError.notFound => 404
  | ApiError.conflict => 409
  | ApiError.invalidState => 400

/-- `User.findById`. -/
def findUser (db : DB) (uid : String) : Option UserDoc :=
  db.users.find? (fun u => u.uid == uid)

/-- `doc.save()` on a user document: write back the document with this id. -/
def putUser (db : DB) (u : UserDoc) : DB :=
  { db with users := db.users.map (fun v => if v.uid == u.uid then u else v) }

/-!  Presence registry (`config/socket.js`).  `activeUsers` is a Map from
user id to socket id; we embed it as an association list with Map
semantics. -/

/-- The in-memory `activeUsers` map: (userId, socketId) pairs. -/
abbrev PresenceMap := List (String × String)

/-- `activeUsers.set(userId, socketId)` on connection: overwrite the
entry for this user if present, otherwise add one. -/
def registerSession (m : PresenceMap) (userId socketId : String) : PresenceMap :=
  if m.any (fun p => p.1 == userId) then
    m.map (fun p => if p.1 == userId then (userId, socketId) else p)
  else
    m ++ [(userId, socketId)]

/-- The `disconnect` handler: `activeUsers.delete(userId)` for the user id
captured when the socket connected, regardless of which socket id the
map currently holds for that user. -/
def handleDisconnect (m : PresenceMap) (userId : String) : PresenceMap :=
  m.filter (fun p => p.1 != userId)

/-- `isUserOnline`: `activeUsers.has(userId)`. -/
def isUserOnline (m : PresenceMap) (userId : String) : Bool :=
  m.any (fun p => p.1 == userId)

/-- The session currently mapped for a user, if any. -/
def lookupSession (m : PresenceMap) (userId : String) : Option String :=
  (m.find? (fun p => p.1 == userId)).map (fun p => p.2)

/-!  Notification emitter (`createNotification`).  The source returns null
without writing when a user would notify themselves, and catches any
persistence error, logging it and returning null.  `persistOk` models
whether the underlying insert succeeds. -/

/-- `createNotification(userId, fromUserId, type, message, ...)`:
best-effort insert of a Notification document. -/
def createNotification (persistOk : Bool) (target fromUser kind msg : String)
    (db : DB) : Option NotificationDoc × DB :=
  if target = fromUser then
    (none, db)
  else if persistOk then
    let n : NotificationDoc := ⟨target, fromUser, kind, msg⟩
    (some n, { db with notifications := db.notifications ++ [n] })
  else
    (none, db)

/-!  ConnectionGraph (`UserController.js`): `toggleFollow` and
`acceptFollowRequest`. -/

/-- Result of `toggleFollow`: either an unfollow (with the fresh counts
the controller reports) or a newly created pending follow request. -/
inductive ToggleResult
  | unfollowed (followingCount followersCount : Nat)
  | requested (request : FollowRequestDoc)
deriving DecidableEq, Repr

/-- The tail of `toggleFollow`'s request branch: create a fresh pending
FollowRequest and fire a best-effort notification to the recipient. -/
def createFollowRequest (notifOk : Bool) (userId followUserId : String)
    (currentUser : UserDoc) (db : DB) : Except ApiError ToggleResult × DB :=
  let newReq : FollowRequestDoc := ⟨db.nextId, userId, followUserId, ReqStatus.pending⟩
  let db1 : DB := { db with requests := db.requests ++ [newReq], nextId := db.nextId + 1 }
  let db2 := (createNotification notifOk followUserId userId "follow_request"
    (currentUser.username ++ " sent you a follow request") db1).2
  (Except.ok (ToggleResult.requested newReq), db2)

/-- `toggleFollow(userId, followUserId)`: unfollow when the requester
already follows the target; otherwise conflict on a pending duplicate,
replace a settled request, or create a fresh pending request. -/
def toggleFollow (notifOk : Bool) (userId followUserId : String) (db : DB) :
    Except ApiError ToggleResult × DB :=
  if userId = followUserId then
    (Except.error ApiError.invalidArgument, db)
  else
    match findUser db userId, findUser db followUserId with
    | some currentUser, some userToFollow =>
      if currentUser.following.contains followUserId then
        let cu : UserDoc :=
          { currentUser with following := currentUser.following.filter (fun i => i != followUserId) }
        let tf : UserDoc :=
          { userToFollow with followers := userToFollow.followers.filter (fun i => i != userId) }
        let db1 := putUser (putUser db cu) tf
        let db2 : DB :=
          { db1 with requests :=
              db1.requests.eraseP (fun r => r.requester == userId && r.recipient == followUserId) }
        (Except.ok (ToggleResult.unfollowed cu.following.length tf.followers.length), db2)
      else
        match db.requests.find? (fun r => r.requester == userId && r.recipient == followUserId) with
        | some existing =>
          if existing.status = ReqStatus.pending then
            (Except.error ApiError.conflict, db)
          else
            let db1 : DB := { db with requests := db.requests.eraseP (fun r => r.rid == existing.rid) }
            createFollowRequest notifOk userId followUserId currentUser db1
        | none => createFollowRequest notifOk userId followUserId currentUser db
    | _, _ => (Except.error ApiError.notFound, db)

/-!  The JavaScript array sort used on id and username pairs compares
strings by code units; we embed that order directly so that it
computes. -/

/-- Code-unit comparison of two character lists, the order JavaScript's
default array sort applies to strings. -/
def charListLe : List Char → List Char → Bool
  | [], _ => true
  | _ :: _, [] => false
  | a :: as, b :: bs =>
    if a.toNat < b.toNat then true
    else if b.toNat < a.toNat then false
    else charListLe as bs

/-- String comparison used by the JavaScript sorts in the source. -/
def strLe (a b : String) : Bool :=
  charListLe a.toList b.toList

/-- The smaller of two strings in sort order. -/
def strMin (a b : String) : String :=
  if strLe a b then a else b

/-- The larger of two strings in sort order. -/
def strMax (a b : String) : String :=
  if strLe a b then b else a

/-- The canonical connection key: the two member ids sorted and joined
with an underscore. -/
def connectionIdFor (a b : String) : String :=
  strMin a b ++ "_" ++ strMax a b

/-- Display name of a mutual connection: the two usernames sorted and
joined with an ampersand. -/
def displayNameFor (n1 n2 : String) : String :=
  strMin n1 n2 ++ " & " ++ strMax n1 n2

/-- The `findOne` filter used when materializing a mutual connection: the
pair in either field order, or the canonical connection id. -/
def matchesPair (a b : String) (c : MutualConnectionDoc) : Bool :=
  let u1 := strMin a b
  let u2 := strMax a b
  (c.user1 == u1 && c.user2 == u2) || (c.user1 == u2 && c.user2 == u1) ||
    c.connectionId == connectionIdFor a b

/-- Successful response of `acceptFollowRequest`. -/
structure AcceptResult where
  requesterId  : String
  recipientId  : String
  mutualConnId : Nat
  connectionId : String
  displayName  : String
deriving DecidableEq, Repr

/-- The tail of `acceptFollowRequest`: materialize the MutualConnection
for the pair, or reactivate an inactive one, with best-effort
notifications to both parties. -/
def materializeConnection (notifOk : Bool) (requester recipient : UserDoc)
    (db3 : DB) : Except ApiError AcceptResult × DB :=
  let user1Id := strMin requester.uid recipient.uid
  let user2Id := strMax requester.uid recipient.uid
  let cid := connectionIdFor requester.uid recipient.uid
  match db3.connections.find? (matchesPair requester.uid recipient.uid) with
  | none =>
    let dname := displayNameFor requester.username recipient.username
    let conn : MutualConnectionDoc := ⟨db3.nextId, user1Id, user2Id, cid, dname, true⟩
    let db4 : DB := { db3 with connections := db3.connections ++ [conn], nextId := db3.nextId + 1 }
    let db5 := (createNotification notifOk requester.uid recipient.uid
      "mutual_connection_created"
      ("You and " ++ recipient.username ++ " are now connected! Mutual connection profile created.")
      db4).2
    let db6 := (createNotification notifOk recipient.uid requester.uid
      "mutual_connection_created"
      ("You and " ++ requester.username ++ " are now connected! Mutual connection profile created.")
      db5).2
    (Except.ok ⟨requester.uid, recipient.uid, conn.mid, conn.connectionId, conn.displayName⟩, db6)
  | some conn =>
    if conn.isActive then
      (Except.ok ⟨requester.uid, recipient.uid, conn.mid, conn.connectionId, conn.displayName⟩, db3)
    else
      let conn1 : MutualConnectionDoc := { conn with isActive := true }
      let db4 : DB :=
        { db3 with connections := db3.connections.map (fun c => if c.mid == conn.mid then conn1 else c) }
      let db5 := (createNotification notifOk requester.uid recipient.uid
        "mutual_connection_reactivated"
        ("Your mutual connection with " ++ recipient.username ++ " has been reactivated.") db4).2
      let db6 := (createNotification notifOk recipient.uid requester.uid
        "mutual_connection_reactivated"
        ("Your mutual connection with " ++ requester.username ++ " has been reactivated.") db5).2
      (Except.ok ⟨requester.uid, recipient.uid, conn1.mid, conn1.connectionId, conn1.displayName⟩, db6)

/-- `acceptFollowRequest(requestId)` acting as `userId`: guard
(missing / not the recipient / not pending), then make the follow
relationship mutual, mark the request accepted, and materialize or
reactivate the canonical MutualConnection. -/
def acceptFollowRequest (notifOk : Bool) (userId : String) (requestId : Nat)
    (db : DB) : Except ApiError AcceptResult × DB :=
  match db.requests.find? (fun r => r.rid == requestId) with
  | none => (Except.error ApiError.notFound, db)
  | some request =>
    if request.recipient ≠ userId then
      (Except.error ApiError.forbidden, db)
    else if request.status ≠ ReqStatus.pending then
      (Except.error ApiError.invalidState, db)
    else
      match findUser db request.requester, findUser db request.recipient with
      | some requester, some recipient =>
        let requester1 : UserDoc :=
          if requester.following.contains recipient.uid then requester
          else { requester with following := requester.following ++ [recipient.uid] }
        let recipient1 : UserDoc :=
          if recipient.followers.contains requester.uid then recipient
          else { recipient with followers := recipient.followers ++ [requester.uid] }
        let request1 : FollowRequestDoc := { request with status := ReqStatus.accepted }
        let db1 := putUser (putUser db requester1) recipient1
        let db2 : DB :=
          { db1 with requests := db1.requests.map (fun r => if r.rid == request.rid then request1 else r) }
        let db3 := (createNotification notifOk requester.uid recipient.uid "follow_accepted"
          (recipient.username ++ " accepted your follow request") db2).2
        materializeConnection notifOk requester recipient db3
      | _, _ => (Except.error ApiError.notFound, db)

/-!  MessageRouter (`messageController` operating on mutual connections):
`sendMessage`, `getMessages`, `getUnreadMessageCount`,
`markMessagesAsRead`. -/

/-- JavaScript whitespace as stripped by `String.prototype.trim`. -/
def isJsSpace (c : Char) : Bool :=
  c == ' ' || c == '\t' || c == '\n' || c == '\r'

/-- `content.trim()`: strip leading and trailing whitespace. -/
def jsTrim (s : String) : String :=
  String.mk (((s.toList.dropWhile isJsSpace).reverse.dropWhile isJsSpace).reverse)

/-- `MutualConnection.findById`. -/
def findConnection (db : DB) (mid : Nat) : Option MutualConnectionDoc :=
  db.connections.find? (fun c => c.mid == mid)

/-- The conversation room key used by `emitToConversation` and the
`join-conversation` handler: the two user ids sorted and joined with an
underscore. -/
def conversationRoomId (userId1 userId2 : String) : String :=
  strMin userId1 userId2 ++ "_" ++ strMax userId1 userId2

/-- `sendMessage(mutualConnectionId, content, messageType)` as `userId`:
reject blank content, require the sender to be a member, persist the
message addressed to the other member, then emit `new-message` to the
receiver's personal room. -/
def sendMessage (userId : String) (mutualConnectionId : Nat)
    (content messageType : String) (db : DB) : Except ApiError MessageDoc × DB :=
  if jsTrim content = "" then
    (Except.error ApiError.invalidArgument, db)
  else
    match findConnection db mutualConnectionId with
    | none => (Except.error ApiError.notFound, db)
    | some mc =>
      if mc.user1 == userId || mc.user2 == userId then
        let receiverId := if mc.user1 == userId then mc.user2 else mc.user1
        let msg : MessageDoc :=
          ⟨db.nextId, mutualConnectionId, userId, receiverId, jsTrim content,
            (if messageType = "" then "text" else messageType), false, none, db.nextId⟩
        let ev : EmitEvent := ⟨Channel.personal receiverId, "new-message", msg.msgId⟩
        let db1 : DB :=
          { db with messages := db.messages ++ [msg], events := db.events ++ [ev],
                    nextId := db.nextId + 1 }
        (Except.ok msg, db1)
      else
        (Except.error ApiError.forbidden, db)

/-- The sort key of `.sort(\x7bcreatedAt: -1\x7d)`: newest first. -/
def newestFirst (a b : MessageDoc) : Prop :=
  b.createdAt ≤ a.createdAt

instance : DecidableRel newestFirst := fun a b =>
  inferInstanceAs (Decidable (b.createdAt ≤ a.createdAt))

instance : IsTotal MessageDoc newestFirst :=
  ⟨fun a b => Nat.le_total b.createdAt a.createdAt⟩

instance : IsTrans MessageDoc newestFirst :=
  ⟨fun _ _ _ hab hbc => Nat.le_trans hbc hab⟩

/-- Fetch order of `getMessages`: descending creation time. -/
def sortByNewest (l : List MessageDoc) : List MessageDoc :=
  l.insertionSort newestFirst

/-- The per-document effect of the `updateMany` that marks a connection's
unread messages to `userId` as read. -/
def markReadUpdate (mutualConnectionId : Nat) (userId : String) (now : Nat)
    (m : MessageDoc) : MessageDoc :=
  if m.mutualConnection == mutualConnectionId && m.receiver == userId && m.isRead == false then
    { m with isRead := true, readAt := some now }
  else
    m

/-- Successful response of `getMessages`. -/
structure MessagesPage where
  messages : List MessageDoc
  page     : Nat
  limit    : Nat
  total    : Nat
deriving DecidableEq, Repr

/-- `getMessages(mutualConnectionId, page, limit)` as `userId`: require
membership, fetch the page newest-first and reverse it to oldest-first,
and bulk-mark the requester's unread messages in the connection as
read. -/
def getMessages (userId : String) (mutualConnectionId : Nat) (page limit : Nat)
    (db : DB) : Except ApiError MessagesPage × DB :=
  let skip := (page - 1) * limit
  match findConnection db mutualConnectionId with
  | none => (Except.error ApiError.notFound, db)
  | some mc =>
    if mc.user1 == userId || mc.user2 == userId then
      let connMsgs := db.messages.filter (fun m => m.mutualConnection == mutualConnectionId)
      let fetched := ((sortByNewest connMsgs).drop skip).take limit
      let db1 : DB :=
        { db with messages := db.messages.map (markReadUpdate mutualConnectionId userId db.nextId),
                  nextId := db.nextId + 1 }
      (Except.ok ⟨fetched.reverse, page, limit, connMsgs.length⟩, db1)
    else
      (Except.error ApiError.forbidden, db)

/-- The count behind `getUnreadMessageCount`: messages of the connection
addressed to the user and not yet read. -/
def unreadCount (db : DB) (mutualConnectionId : Nat) (userId : String) : Nat :=
  (db.messages.filter (fun m =>
    m.mutualConnection == mutualConnectionId && m.receiver == userId && m.isRead == false)).length

/-- `getUnreadMessageCount(mutualConnectionId)` as `userId`: require
membership, then count unread messages addressed to the user. -/
def getUnreadMessageCount (userId : String) (mutualConnectionId : Nat)
    (db : DB) : Except ApiError Nat × DB :=
  match findConnection db mutualConnectionId with
  | none => (Except.error ApiError.notFound, db)
  | some mc =>
    if mc.user1 == userId || mc.user2 == userId then
      (Except.ok (unreadCount db mutualConnectionId userId), db)
    else
      (Except.error ApiError.forbidden, db)

/-- `markMessagesAsRead(mutualConnectionId)` as `userId`: require
membership, then bulk-mark the user's unread messages in the connection
as read, reporting the number of modified documents. -/
def markMessagesAsRead (userId : String) (mutualConnectionId : Nat)
    (db : DB) : Except ApiError Nat × DB :=
  match findConnection db mutualConnectionId with
  | none => (Except.error ApiError.notFound, db)
  | some mc =>
    if mc.user1 == userId || mc.user2 == userId then
      let modified := unreadCount db mutualConnectionId userId
      let db1 : DB :=
        { db with messages := db.messages.map (markReadUpdate mutualConnectionId userId db.nextId),
                  nextId := db.nextId + 1 }
      (Except.ok modified, db1)
    else
      (Except.error ApiError.forbidden, db)

/-- `N` consecutive sends by one user on one connection, one message per
content in the list. -/
def sendN (sender : String) (mutualConnectionId : Nat) (contents : List String)
    (db : DB) : DB :=
  contents.foldl (fun d c => (sendMessage sender mutualConnectionId c "text" d).2) db

/-- The receiver `sendMessage` computes for a sending member: the other
member of the connection. -/
def otherMember (mc : MutualConnectionDoc) (userId : String) : String :=
  if mc.user1 == userId then mc.user2 else mc.user1

/-!  Notification-failure isolation. -/

/-- Two states agreeing on every collection except notifications. -/
def EqExceptNotifications (d1 d2 : DB) : Prop :=
  d1.users = d2.users ∧ d1.requests = d2.requests ∧ d1.connections = d2.connections ∧
    d1.messages = d2.messages ∧ d1.events = d2.events ∧ d1.nextId = d2.nextId

/-- An empty state used by concrete witnesses. -/
def emptyDB : DB := ⟨[], [], [], [], [], [], 0⟩

/-- A state with a single already-accepted request, used to witness the
accept failure paths. -/
def dbAccepted : DB :=
  ⟨[⟨"a", "alice", [], []⟩, ⟨"b", "bob", [], []⟩],
   [⟨0, "a", "b", ReqStatus.accepted⟩], [], [], [], [], 1⟩

/-- A state with one mutual connection between users a and b, used by the
message authorization claims. -/
def dbConn : DB :=
  ⟨[], [], [⟨0, "a", "b", "a_b", "alice & bob", true⟩], [], [], [], 1⟩

/-- A state where a follows b and a pending request from b to a exists,
used by the unfollow claims. -/
def dbFollowPair : DB :=
  ⟨[⟨"a", "alice", ["b"], []⟩, ⟨"b", "bob", [], ["a"]⟩],
   [⟨5, "b", "a", ReqStatus.pending⟩], [], [], [], [], 10⟩

/-- A state with just two users, used by the request-creation witnesses. -/
def dbTwoUsers : DB :=
  ⟨[⟨"a", "alice", [], []⟩, ⟨"b", "bob", [], []⟩], [], [], [], [], [], 0⟩

/-- A state with a pending request from a to b and no connection yet. -/
def dbPending : DB :=
  ⟨[⟨"a", "alice", [], []⟩, ⟨"b", "bob", [], []⟩],
   [⟨0, "a", "b", ReqStatus.pending⟩], [], [], [], [], 1⟩

/-- A state with a pending request from b to a and a deactivated
connection for the pair. -/
def dbInactiveConn : DB :=
  ⟨[⟨"a", "alice", [], []⟩, ⟨"b", "bob", [], []⟩],
   [⟨0, "b", "a", ReqStatus.pending⟩],
   [⟨7, "a", "b", "a_b", "alice & bob", false⟩], [], [], [], 8⟩

/-!  Message delivery channels. -/

/-- Whether an emission targets a conversation room. -/
def isConversationEmit (e : EmitEvent) : Bool :=
  match e.channel with
  | Channel.conversation _ => true
  | Channel.personal _ => false

/-- The message persisted by the concrete send used in the delivery
witnesses. -/
def msgHi : MessageDoc := ⟨1, 0, "a", "b", "hi", "text", false, none, 1⟩

/-- A state with two messages on a connection, used by the history
witness. -/
def dbMsgs : DB :=
  ⟨[], [], [⟨0, "a", "b", "a_b", "alice & bob", true⟩],
   [⟨1, 0, "a", "b", "hi", "text", false, none, 1⟩,
    ⟨2, 0, "b", "a", "yo", "text", false, none, 2⟩], [], [], 3⟩

@[simp] theorem createNotification_users (ok : Bool) (t f k m : String) (db : DB) :
    ((createNotification ok t f k m db).2).users = db.users := by
  unfold createNotification; split <;> [rfl; split <;> rfl]

@[simp] theorem createNotification_requests (ok : Bool) (t f k m : String) (db : DB) :
    ((createNotification ok t f k m db).2).requests = db.requests := by
  unfold createNotification; split <;> [rfl; split <;> rfl]

@[simp] theorem createNotification_connections (ok : Bool) (t f k m : String) (db : DB) :
    ((createNotification ok t f k m db).2).connections = db.connections := by
  unfold createNotification; split <;> [rfl; split <;> rfl]

@[simp] theorem createNotification_messages (ok : Bool) (t f k m : String) (db : DB) :
    ((createNotification ok t f k m db).2).messages = db.messages := by
  unfold createNotification; split <;> [rfl; split <;> rfl]

@[simp] theorem createNotification_events (ok : Bool) (t f k m : String) (db : DB) :
    ((createNotification ok t f k m db).2).events = db.events := by
  unfold createNotification; split <;> [rfl; split <;> rfl]

@[simp] theorem createNotification_nextId (ok : Bool) (t f k m : String) (db : DB) :
    ((createNotification ok t f k m db).2).nextId = db.nextId := by
  unfold createNotification; split <;> [rfl; split <;> rfl]

/-!  Basic properties of the embedded string order. -/

theorem charListLe_total (as bs : List Char) :
    charListLe as bs = true ∨ charListLe bs as = true := by
  induction as generalizing bs with
  | nil => left; rfl
  | cons a as ih =>
    cases bs with
    | nil => right; rfl
    | cons b bs =>
      by_cases h1 : a.toNat < b.toNat
      · left; simp [charListLe, h1]
      · by_cases h2 : b.toNat < a.toNat
        · right; simp [charListLe, h2]
        · rcases ih bs with h | h
          · left; simp [charListLe, h1, h2, h]
          · right; simp [charListLe, h1, h2, h]

theorem charListLe_antisymm (as : List Char) : ∀ bs,
    charListLe as bs = true → charListLe bs as = true → as = bs := by
  induction as with
  | nil =>
    intro bs h1 h2
    cases bs with
    | nil => rfl
    | cons b bs => simp [charListLe] at h2
  | cons a as ih =>
    intro bs h1 h2
    cases bs with
    | nil => simp [charListLe] at h1
    | cons b bs =>
      by_cases hab : a.toNat < b.toNat
      · have hba : ¬b.toNat < a.toNat := by omega
        simp [charListLe, hab, hba] at h2
      · by_cases hba : b.toNat < a.toNat
        · simp [charListLe, hab, hba] at h1
        · have hn : a.toNat = b.toNat := by omega
          have hc : a = b := Char.ext (UInt32.ext hn)
          subst hc
          simp only [charListLe, hab, if_neg, if_false] at h1 h2
          rw [ih bs h1 h2]

theorem strLe_total (a b : String) : strLe a b = true ∨ strLe b a = true :=
  charListLe_total a.toList b.toList

theorem strLe_antisymm (a b : String) (h1 : strLe a b = true)
    (h2 : strLe b a = true) : a = b :=
  String.ext (charListLe_antisymm a.toList b.toList h1 h2)

theorem strMin_comm (a b : String) : strMin a b = strMin b a := by
  unfold strMin
  cases h1 : strLe a b <;> cases h2 : strLe b a <;> simp
  · rcases strLe_total a b with h | h
    · exact absurd h (by simp [h1])
    · exact absurd h (by simp [h2])
  · exact strLe_antisymm a b h1 h2

theorem strMax_comm (a b : String) : strMax a b = strMax b a := by
  unfold strMax
  cases h1 : strLe a b <;> cases h2 : strLe b a <;> simp
  · rcases strLe_total a b with h | h
    · exact absurd h (by simp [h1])
    · exact absurd h (by simp [h2])
  · exact strLe_antisymm b a h2 h1

theorem connectionIdFor_comm (a b : String) :
    connectionIdFor a b = connectionIdFor b a := by
  unfold connectionIdFor
  rw [strMin_comm, strMax_comm]

/-!  Generic list facts used below. -/

theorem find?_congr_mem {α : Type} {p q : α → Bool} (l : List α)
    (h : ∀ x ∈ l, p x = q x) : l.find? p = l.find? q := by
  induction l with
  | nil => rfl
  | cons a l ih =>
    have ha : p a = q a := h a (List.mem_cons_self a l)
    have ht : l.find? p = l.find? q := ih (fun x hx => h x (List.mem_cons_of_mem a hx))
    rw [List.find?_cons, List.find?_cons, ← ha]
    cases p a <;> simp [ht]

/-!  Presence registry facts. -/

theorem lookupSession_registerSession (m : PresenceMap) (u s : String) :
    lookupSession (registerSession m u s) u = some s := by
  unfold registerSession lookupSession
  cases han : m.any (fun p => p.1 == u) with
  | false =>
    simp only [han, Bool.false_eq_true, if_false]
    have hnone : m.find? (fun p => p.1 == u) = none := by
      rw [List.find?_eq_none]
      intro x hx
      rcases List.any_eq_false.mp han x hx with h
      simp [h]
    rw [List.find?_append, hnone]
    simp [List.find?_cons]
  | true =>
    simp only [han, if_true]
    rw [List.find?_map]
    have hpf : ((fun p : String × String => p.1 == u) ∘
        (fun p => if p.1 == u then (u, s) else p)) = (fun p => p.1 == u) := by
      funext p
      by_cases hp : p.1 = u <;> simp [hp]
    rw [hpf]
    obtain ⟨x, hx, hpx⟩ := List.any_eq_true.mp han
    obtain ⟨y, hy⟩ := Option.isSome_iff_exists.mp
      ((@List.find?_isSome (String × String) m (fun p => p.1 == u)).mpr ⟨x, hx, hpx⟩)
    have hpy : y.1 = u := by simpa using List.find?_some hy
    rw [hy]
    simp [hpy]

/-- C10: the presence registry maps each user to at most one session id —
a fresh `register` for a user overwrites the previous mapping — and the
`disconnect` handler deletes the user's entry unconditionally, so after
register(u, s1); register(u, s2); disconnect-of-s1 the registry reports
the user offline even though session s2 is still live. -/
theorem presence_overwrite_and_stale_disconnect :
    (∀ (m : PresenceMap) (u s : String), lookupSession (registerSession m u s) u = some s) ∧
    registerSession (registerSession [] "u" "s1") "u" "s2" = [("u", "s2")] ∧
    isUserOnline (handleDisconnect (registerSession (registerSession [] "u" "s1") "u" "s2") "u") "u"
      = false :=
  ⟨lookupSession_registerSession, by decide, by decide⟩

theorem eqExceptNotifications_refl (d : DB) : EqExceptNotifications d d :=
  ⟨rfl, rfl, rfl, rfl, rfl, rfl⟩

theorem eqExceptNotifications_trans {d1 d2 d3 : DB}
    (h1 : EqExceptNotifications d1 d2) (h2 : EqExceptNotifications d2 d3) :
    EqExceptNotifications d1 d3 := by
  obtain ⟨a1, b1, c1, e1, f1, g1⟩ := h1
  obtain ⟨a2, b2, c2, e2, f2, g2⟩ := h2
  exact ⟨a1.trans a2, b1.trans b2, c1.trans c2, e1.trans e2, f1.trans f2, g1.trans g2⟩

theorem eqExceptNotifications_symm {d1 d2 : DB}
    (h : EqExceptNotifications d1 d2) : EqExceptNotifications d2 d1 := by
  obtain ⟨a, b, c, e, f, g⟩ := h
  exact ⟨a.symm, b.symm, c.symm, e.symm, f.symm, g.symm⟩

theorem createNotification_eqExcept (ok : Bool) (t f k m : String) (db : DB) :
    EqExceptNotifications (createNotification ok t f k m db).2 db :=
  ⟨by simp, by simp, by simp, by simp, by simp, by simp⟩

theorem eqExceptNotifications_shape {d1 d2 : DB}
    (h : EqExceptNotifications d1 d2) :
    d1 = { d2 with notifications := d1.notifications } := by
  obtain ⟨hu, hr, hc, hm, he, hn⟩ := h
  cases d1; cases d2
  simp_all

theorem materializeConnection_notif_indep (ok1 ok2 : Bool) (r rc : UserDoc)
    (db : DB) (xs : List NotificationDoc) :
    (materializeConnection ok1 r rc { db with notifications := xs }).1
      = (materializeConnection ok2 r rc db).1 ∧
    EqExceptNotifications (materializeConnection ok1 r rc { db with notifications := xs }).2
      (materializeConnection ok2 r rc db).2 := by
  unfold materializeConnection
  dsimp only
  cases hfind : db.connections.find? (matchesPair r.uid rc.uid) with
  | none =>
    refine ⟨?_, ?_, ?_, ?_, ?_, ?_, ?_⟩ <;> simp
  | some conn =>
    cases hact : conn.isActive with
    | true => refine ⟨?_, ?_, ?_, ?_, ?_, ?_, ?_⟩ <;> simp [hact]
    | false => refine ⟨?_, ?_, ?_, ?_, ?_, ?_, ?_⟩ <;> simp [hact]

theorem materializeConnection_eqExcept (ok1 ok2 : Bool) (r rc : UserDoc)
    {d1 d2 : DB} (h : EqExceptNotifications d1 d2) :
    (materializeConnection ok1 r rc d1).1 = (materializeConnection ok2 r rc d2).1 ∧
    EqExceptNotifications (materializeConnection ok1 r rc d1).2
      (materializeConnection ok2 r rc d2).2 := by
  rw [eqExceptNotifications_shape h]
  exact materializeConnection_notif_indep ok1 ok2 r rc d2 d1.notifications

/-- C8: the notification emitter is a no-op returning null when a user
would notify themselves; a persistence failure is absorbed inside the
emitter (null result, unchanged state); and the outcome of
`acceptFollowRequest` — its response and every collection other than the
notifications themselves — is the same whether notification persistence
succeeds or fails. -/
theorem notification_emitter_best_effort :
    (∀ (ok : Bool) (t f k m : String) (db : DB), t = f →
      createNotification ok t f k m db = (none, db)) ∧
    (∀ (t f k m : String) (db : DB),
      createNotification false t f k m db = (none, db)) ∧
    (∀ (notifOk : Bool) (uid : String) (rid : Nat) (db : DB),
      (acceptFollowRequest notifOk uid rid db).1 = (acceptFollowRequest true uid rid db).1 ∧
      EqExceptNotifications (acceptFollowRequest notifOk uid rid db).2
        (acceptFollowRequest true uid rid db).2) := by
  refine ⟨?_, ?_, ?_⟩
  · intro ok t f k m db h
    unfold createNotification
    rw [if_pos h]
  · intro t f k m db
    unfold createNotification
    split
    · rfl
    · rfl
  · intro notifOk uid rid db
    unfold acceptFollowRequest
    cases hfind : db.requests.find? (fun r => r.rid == rid) with
    | none => exact ⟨rfl, eqExceptNotifications_refl db⟩
    | some request =>
      dsimp only
      by_cases hrec : request.recipient ≠ uid
      · rw [if_pos hrec, if_pos hrec]
        exact ⟨rfl, eqExceptNotifications_refl db⟩
      · rw [if_neg hrec, if_neg hrec]
        by_cases hst : request.status ≠ ReqStatus.pending
        · rw [if_pos hst, if_pos hst]
          exact ⟨rfl, eqExceptNotifications_refl db⟩
        · rw [if_neg hst, if_neg hst]
          cases hru : findUser db request.requester with
          | none => exact ⟨rfl, eqExceptNotifications_refl db⟩
          | some requester =>
            cases hrc : findUser db request.recipient with
            | none => exact ⟨rfl, eqExceptNotifications_refl db⟩
            | some recipient =>
              dsimp only
              apply materializeConnection_eqExcept
              exact eqExceptNotifications_trans
                (createNotification_eqExcept notifOk _ _ _ _ _)
                (eqExceptNotifications_symm (createNotification_eqExcept true _ _ _ _ _))

/-- Witness for C8 at concrete inputs. -/
theorem notification_emitter_best_effort_witness :
    createNotification true "a" "a" "follow_request" "m" emptyDB = (none, emptyDB) ∧
    createNotification false "a" "b" "follow_request" "m" emptyDB = (none, emptyDB) ∧
    (acceptFollowRequest false "b" 0 emptyDB).1 = (acceptFollowRequest true "b" 0 emptyDB).1 :=
  ⟨notification_emitter_best_effort.1 true "a" "a" "follow_request" "m" emptyDB rfl,
   notification_emitter_best_effort.2.1 "a" "b" "follow_request" "m" emptyDB,
   (notification_emitter_best_effort.2.2 false "b" 0 emptyDB).1⟩

/-- C2: `acceptFollowRequest` fails NotFound when no request with the id
exists, Forbidden when the acting user is not the recipient, and
InvalidState when the request is not pending; in each failure the state
is returned unchanged — no request, user or connection is modified. -/
theorem accept_error_paths (notifOk : Bool) (uid : String) (rid : Nat) (db : DB) :
    (db.requests.find? (fun r => r.rid == rid) = none →
      acceptFollowRequest notifOk uid rid db = (Except.error ApiError.notFound, db)) ∧
    (∀ req, db.requests.find? (fun r => r.rid == rid) = some req →
      req.recipient ≠ uid →
      acceptFollowRequest notifOk uid rid db = (Except.error ApiError.forbidden, db)) ∧
    (∀ req, db.requests.find? (fun r => r.rid == rid) = some req →
      req.recipient = uid → req.status ≠ ReqStatus.pending →
      acceptFollowRequest notifOk uid rid db = (Except.error ApiError.invalidState, db)) := by
  refine ⟨?_, ?_, ?_⟩
  · intro hfind
    unfold acceptFollowRequest
    rw [hfind]
  · intro req hfind hrec
    unfold acceptFollowRequest
    rw [hfind]
    dsimp only
    rw [if_pos hrec]
  · intro req hfind hrec hst
    unfold acceptFollowRequest
    rw [hfind]
    dsimp only
    rw [if_neg (by simp [hrec]), if_pos hst]

/-- Witness for C2: the three failure paths at concrete inputs. -/
theorem accept_error_paths_witness :
    acceptFollowRequest true "b" 99 dbAccepted = (Except.error ApiError.notFound, dbAccepted) ∧
    acceptFollowRequest true "x" 0 dbAccepted = (Except.error ApiError.forbidden, dbAccepted) ∧
    acceptFollowRequest true "b" 0 dbAccepted = (Except.error ApiError.invalidState, dbAccepted) :=
  ⟨(accept_error_paths true "b" 99 dbAccepted).1 rfl,
   (accept_error_paths true "x" 0 dbAccepted).2.1 ⟨0, "a", "b", ReqStatus.accepted⟩ rfl
     (by decide),
   (accept_error_paths true "b" 0 dbAccepted).2.2 ⟨0, "a", "b", ReqStatus.accepted⟩ rfl rfl
     (by decide)⟩

/-- C3 counterexample: a caller who is not a member of the connection but
sends blank content gets InvalidArgument, not Forbidden — the content
guard runs before the membership guard — so a non-member send does not
always fail Forbidden. -/
theorem send_nonmember_blank_content_not_forbidden :
    findConnection dbConn 0 = some ⟨0, "a", "b", "a_b", "alice & bob", true⟩ ∧
    "a" ≠ "x" ∧ "b" ≠ "x" ∧
    sendMessage "x" 0 "" "text" dbConn = (Except.error ApiError.invalidArgument, dbConn) ∧
    ApiError.invalidArgument ≠ ApiError.forbidden :=
  ⟨rfl, by decide, by decide, rfl, by decide⟩

/-- C3 (amended): on an existing connection whose members do not include
the caller, `sendMessage` with non-blank content and `getMessages` always
fail Forbidden with the state unchanged — nothing is persisted and no
message is marked read; a blank-content send fails InvalidArgument
(before the membership check), also with the state unchanged. -/
theorem send_history_nonmember_forbidden (db : DB) (caller : String) (cid : Nat)
    (mc : MutualConnectionDoc) (content messageType : String) (page limit : Nat)
    (hfind : findConnection db cid = some mc)
    (h1 : mc.user1 ≠ caller) (h2 : mc.user2 ≠ caller) :
    (jsTrim content ≠ "" →
      sendMessage caller cid content messageType db = (Except.error ApiError.forbidden, db)) ∧
    getMessages caller cid page limit db = (Except.error ApiError.forbidden, db) ∧
    (jsTrim content = "" →
      sendMessage caller cid content messageType db =
        (Except.error ApiError.invalidArgument, db)) := by
  have hmem : (mc.user1 == caller || mc.user2 == caller) = false := by
    simp [h1, h2]
  refine ⟨?_, ?_, ?_⟩
  · intro hct
    unfold sendMessage
    rw [if_neg hct, hfind]
    dsimp only
    simp only [hmem, Bool.false_eq_true, if_false]
  · unfold getMessages
    rw [hfind]
    dsimp only
    simp only [hmem, Bool.false_eq_true, if_false]
  · intro hct
    unfold sendMessage
    rw [if_pos hct]

/-- Witness for C3 (amended) at concrete inputs. -/
theorem send_history_nonmember_forbidden_witness :
    sendMessage "x" 0 "hey" "text" dbConn = (Except.error ApiError.forbidden, dbConn) ∧
    getMessages "x" 0 1 50 dbConn = (Except.error ApiError.forbidden, dbConn) :=
  have h := send_history_nonmember_forbidden dbConn "x" 0
    ⟨0, "a", "b", "a_b", "alice & bob", true⟩ "hey" "text" 1 50 rfl (by decide) (by decide)
  ⟨h.1 (by decide), h.2.1⟩

/-!  User lookup through `putUser` writes. -/

theorem findUser_some_uid {db : DB} {x : String} {d : UserDoc}
    (h : findUser db x = some d) : d.uid = x := by
  simpa using List.find?_some h

theorem findUser_putUser_hit (db : DB) (w : UserDoc) (x : String)
    (hw : w.uid = x) (hx : (findUser db x).isSome) :
    findUser (putUser db w) x = some w := by
  subst hw
  unfold findUser putUser at *
  dsimp only
  rw [List.find?_map]
  have hpf : ((fun v : UserDoc => v.uid == w.uid) ∘ (fun v => if v.uid == w.uid then w else v))
      = (fun v => v.uid == w.uid) := by
    funext v
    by_cases hv : v.uid = w.uid <;> simp [hv]
  rw [hpf]
  obtain ⟨d, hd⟩ := Option.isSome_iff_exists.mp hx
  have hdx : d.uid = w.uid := by simpa using List.find?_some hd
  rw [hd]
  simp [hdx]

theorem findUser_putUser_miss (db : DB) (w : UserDoc) (x : String)
    (hw : w.uid ≠ x) : findUser (putUser db w) x = findUser db x := by
  unfold findUser putUser
  dsimp only
  rw [List.find?_map]
  have hpf : ((fun v : UserDoc => v.uid == x) ∘ (fun v => if v.uid == w.uid then w else v))
      = (fun v => v.uid == x) := by
    funext v
    by_cases hv : v.uid = w.uid <;> simp [hv]
  rw [hpf]
  cases hd : db.users.find? (fun v => v.uid == x) with
  | none => rfl
  | some d =>
    have hdx : d.uid = x := by simpa using List.find?_some hd
    have : ¬d.uid = w.uid := by
      rw [hdx]
      intro h
      exact hw h.symm
    simp [this]

/-- C4 counterexample: toggling unfollow deletes only the
requester→target request; a pending request between the same pair in the
opposite direction (target→requester) survives the unfollow, so toggle
does not delete "any ConnectionRequest between the pair". -/
theorem toggle_unfollow_keeps_reverse_request :
    (toggleFollow true "a" "b" dbFollowPair).1 = Except.ok (ToggleResult.unfollowed 0 0) ∧
    (⟨5, "b", "a", ReqStatus.pending⟩ : FollowRequestDoc) ∈
      ((toggleFollow true "a" "b" dbFollowPair).2).requests :=
  ⟨rfl, by decide⟩

/-- C4 (amended): when the requester currently follows the target, toggle
removes the target from the requester's following set and the requester
from the target's followers set, returns the unfollowed action, and
deletes the ConnectionRequest from requester to target (unique by the
ordered-pair index); a request in the opposite direction is left in
place, and connections and messages are untouched. -/
theorem toggle_unfollow_spec (notifOk : Bool) (u t : String) (db : DB)
    (cu tu : UserDoc)
    (hne : u ≠ t)
    (hcu : findUser db u = some cu)
    (htu : findUser db t = some tu)
    (hfol : cu.following.contains t = true)
    (hone : (db.requests.filter (fun r => r.requester == u && r.recipient == t)).length ≤ 1) :
    (toggleFollow notifOk u t db).1 =
      Except.ok (ToggleResult.unfollowed
        (cu.following.filter (fun i => i != t)).length
        (tu.followers.filter (fun i => i != u)).length) ∧
    findUser (toggleFollow notifOk u t db).2 u =
      some { cu with following := cu.following.filter (fun i => i != t) } ∧
    findUser (toggleFollow notifOk u t db).2 t =
      some { tu with followers := tu.followers.filter (fun i => i != u) } ∧
    (∀ r ∈ ((toggleFollow notifOk u t db).2).requests,
      ¬(r.requester = u ∧ r.recipient = t)) ∧
    (∀ r ∈ db.requests, ¬(r.requester = u ∧ r.recipient = t) →
      r ∈ ((toggleFollow notifOk u t db).2).requests) ∧
    ((toggleFollow notifOk u t db).2).connections = db.connections ∧
    ((toggleFollow notifOk u t db).2).messages = db.messages := by
  have hcuu : cu.uid = u := findUser_some_uid hcu
  have htuu : tu.uid = t := findUser_some_uid htu
  set cu1 : UserDoc := { cu with following := cu.following.filter (fun i => i != t) } with hcu1
  set tu1 : UserDoc := { tu with followers := tu.followers.filter (fun i => i != u) } with htu1
  have heq : toggleFollow notifOk u t db =
      (Except.ok (ToggleResult.unfollowed cu1.following.length tu1.followers.length),
       { putUser (putUser db cu1) tu1 with
         requests := db.requests.eraseP (fun r => r.requester == u && r.recipient == t) }) := by
    unfold toggleFollow
    rw [if_neg hne, hcu, htu]
    dsimp only
    rw [if_pos hfol]
    rfl
  rw [heq]
  refine ⟨rfl, ?_, ?_, ?_, ?_, rfl, rfl⟩
  · show findUser (putUser (putUser db cu1) tu1) u = some cu1
    rw [findUser_putUser_miss _ _ _ (by rw [htu1]; simpa [htuu] using Ne.symm hne)]
    exact findUser_putUser_hit _ _ _ (by rw [hcu1]; exact hcuu)
      (by rw [hcu]; rfl)
  · show findUser (putUser (putUser db cu1) tu1) t = some tu1
    apply findUser_putUser_hit _ _ _ (by rw [htu1]; exact htuu)
    rw [findUser_putUser_miss _ _ _ (by rw [hcu1]; simpa [hcuu] using hne), htu]
    rfl
  · intro r hr hcontra
    have hpr : (r.requester == u && r.recipient == t) = true := by
      simp [hcontra.1, hcontra.2]
    by_cases hex : ∃ a ∈ db.requests, (a.requester == u && a.recipient == t) = true
    · obtain ⟨a, ha, hpa⟩ := hex
      obtain ⟨a', l1, l2, hl1, hpa', hsplit, herase⟩ :=
        @List.exists_of_eraseP FollowRequestDoc
          (fun r => r.requester == u && r.recipient == t) db.requests a ha hpa
      rw [herase] at hr
      rcases List.mem_append.mp hr with h | h
      · exact absurd hpr (by simpa using hl1 r h)
      · have hcount := hone
        rw [hsplit, List.filter_append] at hcount
        have hf1 : l1.filter (fun r => r.requester == u && r.recipient == t) = [] :=
          List.filter_eq_nil_iff.mpr hl1
        rw [hf1] at hcount
        simp only [List.nil_append, List.filter_cons, hpa', if_true, List.length_cons] at hcount
        have hf2 : (l2.filter (fun r => r.requester == u && r.recipient == t)).length = 0 := by
          omega
        have := List.filter_eq_nil_iff.mp (List.length_eq_zero.mp hf2) r h
        exact absurd hpr (by simpa using this)
    · push_neg at hex
      have herase : db.requests.eraseP (fun r => r.requester == u && r.recipient == t)
          = db.requests := by
        apply List.eraseP_of_forall_not
        intro a ha
        simp only [Bool.not_eq_true]
        exact Bool.not_eq_true _ ▸ (by simpa using hex a ha)
      rw [herase] at hr
      exact absurd hpr (by simpa using hex r hr)
  · intro r hr hne2
    have hpr : (r.requester == u && r.recipient == t) = false := by
      rcases not_and_or.mp hne2 with h | h <;> simp [h]
    by_cases hex : ∃ a ∈ db.requests, (a.requester == u && a.recipient == t) = true
    · obtain ⟨a, ha, hpa⟩ := hex
      obtain ⟨a', l1, l2, hl1, hpa', hsplit, herase⟩ :=
        @List.exists_of_eraseP FollowRequestDoc
          (fun r => r.requester == u && r.recipient == t) db.requests a ha hpa
      rw [herase]
      rw [hsplit] at hr
      rcases List.mem_append.mp hr with h | h
      · exact List.mem_append.mpr (Or.inl h)
      · rcases List.mem_cons.mp h with h | h
        · rw [h] at hpr
          rw [hpa'] at hpr
          cases hpr
        · exact List.mem_append.mpr (Or.inr h)
    · push_neg at hex
      have herase : db.requests.eraseP (fun r => r.requester == u && r.recipient == t)
          = db.requests := by
        apply List.eraseP_of_forall_not
        intro a ha
        simpa using hex a ha
      rw [herase]
      exact hr

/-- Witness for C4 (amended) at concrete inputs. -/
theorem toggle_unfollow_spec_witness :
    (toggleFollow true "a" "b" dbFollowPair).1 = Except.ok (ToggleResult.unfollowed 0 0) ∧
    findUser (toggleFollow true "a" "b" dbFollowPair).2 "a" = some ⟨"a", "alice", [], []⟩ ∧
    findUser (toggleFollow true "a" "b" dbFollowPair).2 "b" = some ⟨"b", "bob", [], []⟩ ∧
    (∀ r ∈ ((toggleFollow true "a" "b" dbFollowPair).2).requests,
      ¬(r.requester = "a" ∧ r.recipient = "b")) := by
  have h := toggle_unfollow_spec true "a" "b" dbFollowPair
    ⟨"a", "alice", ["b"], []⟩ ⟨"b", "bob", [], ["a"]⟩
    (by decide) rfl rfl (by decide) (by decide)
  exact ⟨h.1, h.2.1, h.2.2.1, h.2.2.2.1⟩

/-!  The request-creating branch of `toggleFollow`. -/

@[simp] theorem createFollowRequest_fst (ok : Bool) (u t : String) (cu : UserDoc) (db : DB) :
    (createFollowRequest ok u t cu db).1 =
      Except.ok (ToggleResult.requested ⟨db.nextId, u, t, ReqStatus.pending⟩) := rfl

@[simp] theorem createFollowRequest_requests (ok : Bool) (u t : String) (cu : UserDoc) (db : DB) :
    ((createFollowRequest ok u t cu db).2).requests =
      db.requests ++ [⟨db.nextId, u, t, ReqStatus.pending⟩] := by
  unfold createFollowRequest
  dsimp only
  rw [createNotification_requests]

@[simp] theorem createFollowRequest_users (ok : Bool) (u t : String) (cu : UserDoc) (db : DB) :
    ((createFollowRequest ok u t cu db).2).users = db.users := by
  unfold createFollowRequest
  dsimp only
  rw [createNotification_users]

@[simp] theorem createFollowRequest_connections (ok : Bool) (u t : String) (cu : UserDoc) (db : DB) :
    ((createFollowRequest ok u t cu db).2).connections = db.connections := by
  unfold createFollowRequest
  dsimp only
  rw [createNotification_connections]

@[simp] theorem createFollowRequest_messages (ok : Bool) (u t : String) (cu : UserDoc) (db : DB) :
    ((createFollowRequest ok u t cu db).2).messages = db.messages := by
  unfold createFollowRequest
  dsimp only
  rw [createNotification_messages]

theorem findUser_users_eq {d1 d2 : DB} (h : d1.users = d2.users) (x : String) :
    findUser d1 x = findUser d2 x := by
  unfold findUser
  rw [h]

/-- C5: when the requester does not follow the target, toggle fails
Conflict on an existing pending request (creating nothing), replaces an
accepted/rejected request by a fresh pending one which it returns, and
creates a fresh pending request when none exists; consequently a second
toggle right after a successful request-creating toggle fails
Conflict. -/
theorem toggle_request_branch (notifOk : Bool) (u t : String) (db : DB)
    (cu tu : UserDoc)
    (hne : u ≠ t)
    (hcu : findUser db u = some cu)
    (htu : findUser db t = some tu)
    (hnotfol : cu.following.contains t = false)
    (hone : (db.requests.filter (fun r => r.requester == u && r.recipient == t)).length ≤ 1)
    (hrid : ∀ r1 ∈ db.requests, ∀ r2 ∈ db.requests, r1.rid = r2.rid → r1 = r2) :
    (∀ req, db.requests.find? (fun r => r.requester == u && r.recipient == t) = some req →
      req.status = ReqStatus.pending →
      toggleFollow notifOk u t db = (Except.error ApiError.conflict, db)) ∧
    (∀ req, db.requests.find? (fun r => r.requester == u && r.recipient == t) = some req →
      req.status ≠ ReqStatus.pending →
      (toggleFollow notifOk u t db).1 =
        Except.ok (ToggleResult.requested ⟨db.nextId, u, t, ReqStatus.pending⟩) ∧
      ((toggleFollow notifOk u t db).2).requests =
        db.requests.eraseP (fun r => r.rid == req.rid) ++ [⟨db.nextId, u, t, ReqStatus.pending⟩] ∧
      ((toggleFollow notifOk u t db).2).users = db.users ∧
      ((toggleFollow notifOk u t db).2).connections = db.connections ∧
      ((toggleFollow notifOk u t db).2).messages = db.messages) ∧
    (db.requests.find? (fun r => r.requester == u && r.recipient == t) = none →
      (toggleFollow notifOk u t db).1 =
        Except.ok (ToggleResult.requested ⟨db.nextId, u, t, ReqStatus.pending⟩) ∧
      ((toggleFollow notifOk u t db).2).requests =
        db.requests ++ [⟨db.nextId, u, t, ReqStatus.pending⟩] ∧
      ((toggleFollow notifOk u t db).2).users = db.users) ∧
    (∀ res db2, toggleFollow notifOk u t db = (Except.ok (ToggleResult.requested res), db2) →
      toggleFollow notifOk u t db2 = (Except.error ApiError.conflict, db2)) := by
  have hnotfolP : ¬(cu.following.contains t = true) := by rw [hnotfol]; simp
  refine ⟨?_, ?_, ?_, ?_⟩
  · intro req hfind hp
    unfold toggleFollow
    rw [if_neg hne, hcu, htu]
    dsimp only
    rw [if_neg hnotfolP, hfind]
    dsimp only
    rw [if_pos hp]
  · intro req hfind hst
    have heq : toggleFollow notifOk u t db = createFollowRequest notifOk u t cu
        { db with requests := db.requests.eraseP (fun r => r.rid == req.rid) } := by
      unfold toggleFollow
      rw [if_neg hne, hcu, htu]
      dsimp only
      rw [if_neg hnotfolP, hfind]
      dsimp only
      rw [if_neg hst]
    rw [heq]
    refine ⟨?_, ?_, ?_, ?_, ?_⟩ <;> simp
  · intro hfind
    have heq : toggleFollow notifOk u t db = createFollowRequest notifOk u t cu db := by
      unfold toggleFollow
      rw [if_neg hne, hcu, htu]
      dsimp only
      rw [if_neg hnotfolP, hfind]
    rw [heq]
    refine ⟨?_, ?_, ?_⟩ <;> simp
  · intro res db2 h
    unfold toggleFollow at h
    rw [if_neg hne, hcu, htu] at h
    dsimp only at h
    rw [if_neg hnotfolP] at h
    -- db2.requests ends with the fresh pending request and its base part
    -- has no (u, t) request; users are unchanged
    have hmain : db2.users = db.users ∧
        ∃ base, db2.requests = base ++ [(⟨db.nextId, u, t, ReqStatus.pending⟩ : FollowRequestDoc)] ∧
          ∀ b ∈ base, ¬((b.requester == u && b.recipient == t) = true) := by
      cases hfind : db.requests.find? (fun r => r.requester == u && r.recipient == t) with
      | none =>
        rw [hfind] at h
        dsimp only at h
        have hdb2 : db2 = (createFollowRequest notifOk u t cu db).2 :=
          (congrArg Prod.snd h).symm
        subst hdb2
        refine ⟨by simp, db.requests, by simp, ?_⟩
        intro b hb
        exact List.find?_eq_none.mp hfind b hb
      | some req =>
        rw [hfind] at h
        dsimp only at h
        by_cases hp : req.status = ReqStatus.pending
        · rw [if_pos hp] at h
          exact absurd (congrArg Prod.fst h) (by simp)
        · rw [if_neg hp] at h
          have hdb2 : db2 = (createFollowRequest notifOk u t cu
              { db with requests := db.requests.eraseP (fun r => r.rid == req.rid) }).2 :=
            (congrArg Prod.snd h).symm
          subst hdb2
          refine ⟨by simp, db.requests.eraseP (fun r => r.rid == req.rid), by simp, ?_⟩
          have hreq_mem : req ∈ db.requests := List.mem_of_find?_eq_some hfind
          have hreq_p : (req.requester == u && req.recipient == t) = true := by
            have h2 := List.find?_some hfind
            simpa using h2
          obtain ⟨a', l1, l2, hl1, hpa', hsplit, herase⟩ :=
            @List.exists_of_eraseP FollowRequestDoc
              (fun r => r.rid == req.rid) db.requests req hreq_mem (by simp)
          have ha'_mem : a' ∈ db.requests := by
            rw [hsplit]
            exact List.mem_append.mpr (Or.inr (List.mem_cons_self a' l2))
          have ha'_req : a' = req := hrid a' ha'_mem req hreq_mem (by simpa using hpa')
          subst ha'_req
          rw [herase]
          have hcount := hone
          rw [hsplit, List.filter_append, List.filter_cons, hreq_p] at hcount
          simp only [if_true, List.length_append, List.length_cons] at hcount
          intro b hb
          rcases List.mem_append.mp hb with hbm | hbm
          · have : (l1.filter (fun r => r.requester == u && r.recipient == t)).length = 0 := by
              omega
            exact by
              simpa using List.filter_eq_nil_iff.mp (List.length_eq_zero.mp this) b hbm
          · have : (l2.filter (fun r => r.requester == u && r.recipient == t)).length = 0 := by
              omega
            exact by
              simpa using List.filter_eq_nil_iff.mp (List.length_eq_zero.mp this) b hbm
    obtain ⟨husers, base, hreqs, hbase⟩ := hmain
    have hfind2 : db2.requests.find? (fun r => r.requester == u && r.recipient == t) =
        some ⟨db.nextId, u, t, ReqStatus.pending⟩ := by
      rw [hreqs, List.find?_append]
      have hbnone : base.find? (fun r => r.requester == u && r.recipient == t) = none :=
        List.find?_eq_none.mpr hbase
      rw [hbnone]
      simp [List.find?_cons]
    unfold toggleFollow
    rw [if_neg hne, findUser_users_eq husers u, findUser_users_eq husers t, hcu, htu]
    dsimp only
    rw [if_neg hnotfolP, hfind2]
    dsimp only
    rw [if_pos rfl]

/-- Witness for C5 at concrete inputs: first toggle creates a pending
request, an immediate second toggle hits Conflict. -/
theorem toggle_request_branch_witness :
    (toggleFollow true "a" "b" dbTwoUsers).1 =
      Except.ok (ToggleResult.requested ⟨0, "a", "b", ReqStatus.pending⟩) ∧
    toggleFollow true "a" "b" (toggleFollow true "a" "b" dbTwoUsers).2 =
      (Except.error ApiError.conflict, (toggleFollow true "a" "b" dbTwoUsers).2) := by
  have h := toggle_request_branch true "a" "b" dbTwoUsers
    ⟨"a", "alice", [], []⟩ ⟨"b", "bob", [], []⟩
    (by decide) rfl rfl (by decide) (by decide) (by decide)
  refine ⟨(h.2.2.1 rfl).1, ?_⟩
  exact h.2.2.2 ⟨0, "a", "b", ReqStatus.pending⟩ (toggleFollow true "a" "b" dbTwoUsers).2 rfl

/-!  Canonical uniqueness of mutual connections. -/

@[simp] theorem putUser_requests (db : DB) (w : UserDoc) :
    (putUser db w).requests = db.requests := rfl

@[simp] theorem putUser_connections (db : DB) (w : UserDoc) :
    (putUser db w).connections = db.connections := rfl

@[simp] theorem putUser_messages (db : DB) (w : UserDoc) :
    (putUser db w).messages = db.messages := rfl

@[simp] theorem putUser_nextId (db : DB) (w : UserDoc) :
    (putUser db w).nextId = db.nextId := rfl

theorem countP_congr_mem {α : Type} {p q : α → Bool} (l : List α)
    (h : ∀ x ∈ l, p x = q x) : l.countP p = l.countP q := by
  induction l with
  | nil => rfl
  | cons a l ih =>
    have ha : p a = q a := h a (List.mem_cons_self a l)
    have ht : l.countP p = l.countP q := ih (fun x hx => h x (List.mem_cons_of_mem a hx))
    rw [List.countP_cons, List.countP_cons, ha, ht]

theorem matchesPair_set_isActive (a b : String) (c : MutualConnectionDoc) (x : Bool) :
    matchesPair a b { c with isActive := x } = matchesPair a b c := rfl

/-- The new connection created when none matches the pair satisfies the
lookup filter, through its canonical connection id. -/
theorem matchesPair_new (r rc : UserDoc) (n : Nat) (dn : String) :
    matchesPair r.uid rc.uid
      ⟨n, strMin r.uid rc.uid, strMax r.uid rc.uid, connectionIdFor r.uid rc.uid, dn, true⟩
      = true := by
  unfold matchesPair
  simp

theorem materialize_spec (notifOk : Bool) (r rc : UserDoc) (d : DB)
    (hmid : ∀ c1 ∈ d.connections, ∀ c2 ∈ d.connections, c1.mid = c2.mid → c1 = c2) :
    ∀ resp d2, materializeConnection notifOk r rc d = (Except.ok resp, d2) →
    resp.requesterId = r.uid ∧ resp.recipientId = rc.uid ∧
    ((d.connections.filter (matchesPair r.uid rc.uid)).length ≤ 1 →
      (d2.connections.filter (matchesPair r.uid rc.uid)).length ≤ 1) ∧
    (∀ c, d.connections.find? (matchesPair r.uid rc.uid) = some c → c.isActive = false →
      d2.connections.length = d.connections.length ∧
      ∃ c2, d2.connections.find? (matchesPair r.uid rc.uid) = some c2 ∧
        c2.isActive = true ∧ c2.mid = c.mid ∧ c2.connectionId = c.connectionId) ∧
    (d.connections.find? (matchesPair r.uid rc.uid) = none →
      ∃ cNew, d2.connections = d.connections ++ [cNew] ∧
        cNew.connectionId = connectionIdFor r.uid rc.uid ∧ cNew.isActive = true) := by
  intro resp d2 h
  unfold materializeConnection at h
  cases hfind : d.connections.find? (matchesPair r.uid rc.uid) with
  | none =>
    rw [hfind] at h
    dsimp only at h
    have hd2 : d2 = _ := (congrArg Prod.snd h).symm
    have hresp : resp = ⟨r.uid, rc.uid, d.nextId, connectionIdFor r.uid rc.uid,
        displayNameFor r.username rc.username⟩ := by
      have := congrArg Prod.fst h
      dsimp only at this
      exact (Except.ok.inj this).symm
    subst hd2
    subst hresp
    have hconns : ∀ xs : List MutualConnectionDoc,
        ((createNotification notifOk rc.uid r.uid "mutual_connection_created"
          ("You and " ++ r.username ++ " are now connected! Mutual connection profile created.")
          ((createNotification notifOk r.uid rc.uid "mutual_connection_created"
            ("You and " ++ rc.username ++ " are now connected! Mutual connection profile created.")
            { d with connections := xs, nextId := d.nextId + 1 }).2)).2).connections = xs := by
      intro xs
      rw [createNotification_connections, createNotification_connections]
    refine ⟨rfl, rfl, ?_, ?_, ?_⟩
    · intro _
      dsimp only
      rw [hconns, List.filter_append]
      have h0 : d.connections.filter (matchesPair r.uid rc.uid) = [] :=
        List.filter_eq_nil_iff.mpr (List.find?_eq_none.mp hfind)
      rw [h0]
      simp [matchesPair_new]
    · intro c hc
      exact Option.noConfusion hc
    · intro _
      dsimp only
      exact ⟨_, hconns _, rfl, rfl⟩
  | some conn =>
    rw [hfind] at h
    dsimp only at h
    have hconn_mem : conn ∈ d.connections := List.mem_of_find?_eq_some hfind
    by_cases hact : conn.isActive = true
    · rw [if_pos hact] at h
      have hd2 : d2 = d := (congrArg Prod.snd h).symm
      subst hd2
      refine ⟨?_, ?_, fun hx => hx, ?_, ?_⟩
      · exact (congrArg AcceptResult.requesterId (Except.ok.inj (congrArg Prod.fst h))).symm
      · exact (congrArg AcceptResult.recipientId (Except.ok.inj (congrArg Prod.fst h))).symm
      · intro c hc hcact
        have hcc : c = conn := (Option.some.inj hc).symm
        subst hcc
        rw [hact] at hcact
        cases hcact
      · intro hnone
        exact Option.noConfusion hnone
    · rw [if_neg hact] at h
      have hd2 : d2 = _ := (congrArg Prod.snd h).symm
      subst hd2
      have hresp : resp = ⟨r.uid, rc.uid, conn.mid, conn.connectionId, conn.displayName⟩ := by
        have := congrArg Prod.fst h
        dsimp only at this
        exact (Except.ok.inj this).symm
      subst hresp
      have hconns : ∀ (xs : List MutualConnectionDoc), xs = d.connections.map
          (fun c => if c.mid == conn.mid then { conn with isActive := true } else c) →
          ((createNotification notifOk rc.uid r.uid "mutual_connection_reactivated"
            ("Your mutual connection with " ++ r.username ++ " has been reactivated.")
            ((createNotification notifOk r.uid rc.uid "mutual_connection_reactivated"
              ("Your mutual connection with " ++ rc.username ++ " has been reactivated.")
              { d with connections := xs }).2)).2).connections = xs := by
        intro xs _
        rw [createNotification_connections, createNotification_connections]
      have hmap : ∀ x ∈ d.connections,
          matchesPair r.uid rc.uid
            (if x.mid == conn.mid then { conn with isActive := true } else x)
            = matchesPair r.uid rc.uid x := by
        intro x hx
        by_cases hxm : x.mid = conn.mid
        · have hxc : x = conn := hmid x hx conn hconn_mem hxm
          subst hxc
          simp [matchesPair_set_isActive]
        · simp [hxm]
      have hconns2 := hconns _ rfl
      refine ⟨rfl, rfl, ?_, ?_, ?_⟩
      · intro hle
        dsimp only
        rw [hconns2, ← List.countP_eq_length_filter, List.countP_map]
        rw [← List.countP_eq_length_filter] at hle
        calc List.countP ((matchesPair r.uid rc.uid) ∘
              (fun c => if c.mid == conn.mid then { conn with isActive := true } else c))
              d.connections
            = List.countP (matchesPair r.uid rc.uid) d.connections :=
              countP_congr_mem d.connections (fun x hx => hmap x hx)
          _ ≤ 1 := hle
      · intro c hc hcact
        have hcc : c = conn := (Option.some.inj hc).symm
        subst hcc
        constructor
        · dsimp only
          rw [hconns2, List.length_map]
        · refine ⟨{ c with isActive := true }, ?_, rfl, rfl, rfl⟩
          dsimp only
          rw [hconns2, List.find?_map]
          have hfc : d.connections.find? ((matchesPair r.uid rc.uid) ∘
              (fun x => if x.mid == c.mid then { c with isActive := true } else x))
              = d.connections.find? (matchesPair r.uid rc.uid) :=
            find?_congr_mem d.connections (fun x hx => hmap x hx)
          rw [hfc, hfind]
          simp
      · intro hnone
        exact Option.noConfusion hnone

/-- C1: accepting requests between the same unordered pair — in either
direction — never yields two MutualConnection rows: the canonical
connection id is direction-independent, a pair with at most one matching
row keeps at most one, an existing inactive row is reactivated in place
(same row count, isActive flipped to true), and when no row matches a
single row keyed by the canonical connection id is created. -/
theorem accept_canonical_unique (notifOk : Bool) (uid : String) (rid : Nat)
    (db : DB) (resp : AcceptResult) (db2 : DB)
    (hmid : ∀ c1 ∈ db.connections, ∀ c2 ∈ db.connections, c1.mid = c2.mid → c1 = c2)
    (h : acceptFollowRequest notifOk uid rid db = (Except.ok resp, db2)) :
    connectionIdFor resp.requesterId resp.recipientId
      = connectionIdFor resp.recipientId resp.requesterId ∧
    ((db.connections.filter (matchesPair resp.requesterId resp.recipientId)).length ≤ 1 →
      (db2.connections.filter (matchesPair resp.requesterId resp.recipientId)).length ≤ 1) ∧
    (∀ c, db.connections.find? (matchesPair resp.requesterId resp.recipientId) = some c →
      c.isActive = false →
      db2.connections.length = db.connections.length ∧
      ∃ c2, db2.connections.find? (matchesPair resp.requesterId resp.recipientId) = some c2 ∧
        c2.isActive = true ∧ c2.mid = c.mid ∧ c2.connectionId = c.connectionId) ∧
    (db.connections.find? (matchesPair resp.requesterId resp.recipientId) = none →
      ∃ cNew, db2.connections = db.connections ++ [cNew] ∧
        cNew.connectionId = connectionIdFor resp.requesterId resp.recipientId ∧
        cNew.isActive = true) := by
  unfold acceptFollowRequest at h
  cases hfind : db.requests.find? (fun r => r.rid == rid) with
  | none =>
    rw [hfind] at h
    exact absurd (congrArg Prod.fst h) (by simp)
  | some request =>
    rw [hfind] at h
    dsimp only at h
    by_cases hrec : request.recipient ≠ uid
    · rw [if_pos hrec] at h
      exact absurd (congrArg Prod.fst h) (by simp)
    · rw [if_neg hrec] at h
      by_cases hst : request.status ≠ ReqStatus.pending
      · rw [if_pos hst] at h
        exact absurd (congrArg Prod.fst h) (by simp)
      · rw [if_neg hst] at h
        cases hru : findUser db request.requester with
        | none =>
          rw [hru] at h
          exact absurd (congrArg Prod.fst h) (by simp)
        | some requester =>
          cases hrc : findUser db request.recipient with
          | none =>
            rw [hru, hrc] at h
            exact absurd (congrArg Prod.fst h) (by simp)
          | some recipient =>
            rw [hru, hrc] at h
            dsimp only at h
            -- the state handed to materializeConnection keeps db's connections
            obtain ⟨d3, hd3conn, hm⟩ : ∃ d3 : DB, d3.connections = db.connections ∧
                materializeConnection notifOk requester recipient d3 = (Except.ok resp, db2) := by
              refine ⟨_, ?_, h⟩
              rw [createNotification_connections]
              rfl
            have hspec := materialize_spec notifOk requester recipient d3
              (by rw [hd3conn]; exact hmid) resp db2 hm
            obtain ⟨hrid1, hrid2, hcount, hreact, hcreate⟩ := hspec
            rw [hd3conn] at hcount hreact hcreate
            rw [hrid1, hrid2]
            exact ⟨connectionIdFor_comm requester.uid recipient.uid, hcount, hreact, hcreate⟩

/-- Witness for C1 at concrete inputs: accepting a→b creates one canonical
row; accepting the opposite direction b→a over an inactive row for the
same pair reactivates it without adding a row. -/
theorem accept_canonical_unique_witness :
    (∃ cNew, ((acceptFollowRequest true "b" 0 dbPending).2).connections =
        dbPending.connections ++ [cNew] ∧
      cNew.connectionId = connectionIdFor "a" "b" ∧ cNew.isActive = true) ∧
    (((acceptFollowRequest true "a" 0 dbInactiveConn).2).connections.length =
        dbInactiveConn.connections.length ∧
      ∃ c2, ((acceptFollowRequest true "a" 0 dbInactiveConn).2).connections.find?
          (matchesPair "b" "a") = some c2 ∧ c2.isActive = true ∧ c2.mid = 7 ∧
          c2.connectionId = "a_b") := by
  constructor
  · have h := accept_canonical_unique true "b" 0 dbPending
      ⟨"a", "b", 1, "a_b", "alice & bob"⟩ (acceptFollowRequest true "b" 0 dbPending).2
      (by decide) rfl
    exact h.2.2.2 rfl
  · have h := accept_canonical_unique true "a" 0 dbInactiveConn
      ⟨"b", "a", 7, "a_b", "alice & bob"⟩ (acceptFollowRequest true "a" 0 dbInactiveConn).2
      (by decide) rfl
    exact h.2.2.1 ⟨7, "a", "b", "a_b", "alice & bob", false⟩ rfl rfl

/-- C9 counterexample: a successful connection-scoped send delivers the
new-message event on exactly one channel — the receiver's personal room —
and no event at all reaches the canonical conversation room. -/
theorem connection_send_single_channel :
    (sendMessage "a" 0 "hi" "" dbConn).1 = Except.ok msgHi ∧
    ((sendMessage "a" 0 "hi" "" dbConn).2).events =
      [⟨Channel.personal "b", "new-message", 1⟩] ∧
    (((sendMessage "a" 0 "hi" "" dbConn).2).events.countP isConversationEmit) = 0 :=
  ⟨rfl, rfl, rfl⟩

/-- C9 (amended): every successful connection-scoped send first persists
the Message and then pushes the new-message event only to the receiver's
personal session channel; it adds no event on the canonical conversation
room channel. -/
theorem connection_send_personal_channel_only (userId : String) (cid : Nat)
    (content messageType : String) (db : DB) (msg : MessageDoc) (db2 : DB)
    (h : sendMessage userId cid content messageType db = (Except.ok msg, db2)) :
    db2.messages = db.messages ++ [msg] ∧
    db2.events = db.events ++ [⟨Channel.personal msg.receiver, "new-message", msg.msgId⟩] ∧
    db2.events.countP isConversationEmit = db.events.countP isConversationEmit := by
  unfold sendMessage at h
  by_cases hct : jsTrim content = ""
  · rw [if_pos hct] at h
    exact absurd (congrArg Prod.fst h) (by simp)
  · rw [if_neg hct] at h
    cases hfind : findConnection db cid with
    | none =>
      rw [hfind] at h
      exact absurd (congrArg Prod.fst h) (by simp)
    | some mc =>
      rw [hfind] at h
      dsimp only at h
      by_cases hmem : (mc.user1 == userId || mc.user2 == userId) = true
      · rw [if_pos hmem] at h
        have hmsg : msg = ⟨db.nextId, cid, userId,
            (if mc.user1 == userId then mc.user2 else mc.user1), jsTrim content,
            (if messageType = "" then "text" else messageType), false, none, db.nextId⟩ :=
          (Except.ok.inj (congrArg Prod.fst h)).symm
        have hdb2 : db2 = _ := (congrArg Prod.snd h).symm
        subst hdb2
        refine ⟨by rw [hmsg], by rw [hmsg], ?_⟩
        dsimp only
        rw [List.countP_append]
        have h1 : List.countP isConversationEmit
            [⟨Channel.personal (if mc.user1 == userId then mc.user2 else mc.user1),
              "new-message", db.nextId⟩] = 0 := rfl
        rw [h1]
        omega
      · rw [if_neg hmem] at h
        exact absurd (congrArg Prod.fst h) (by simp)

/-- Witness for C9 (amended) at concrete inputs. -/
theorem connection_send_personal_channel_only_witness :
    ((sendMessage "a" 0 "hi" "" dbConn).2).messages = dbConn.messages ++ [msgHi] ∧
    ((sendMessage "a" 0 "hi" "" dbConn).2).events =
      dbConn.events ++ [⟨Channel.personal msgHi.receiver, "new-message", msgHi.msgId⟩] ∧
    ((sendMessage "a" 0 "hi" "" dbConn).2).events.countP isConversationEmit =
      dbConn.events.countP isConversationEmit :=
  connection_send_personal_channel_only "a" 0 "hi" "" dbConn msgHi
    (sendMessage "a" 0 "hi" "" dbConn).2 rfl

/-!  Paginated history. -/

/-- C6: for a member requester on the first page, history returns the
most recent `limit` messages of the connection — fetched newest-first and
reversed to chronological order, so the response is sorted by creation
time and every message left out is at least as old as every message
returned — and, in one bulk update, marks every unread message of the
connection addressed to the requester as read. -/
theorem getMessages_spec (userId : String) (cid : Nat) (limit : Nat) (db : DB)
    (mc : MutualConnectionDoc)
    (hfind : findConnection db cid = some mc)
    (hmem : (mc.user1 == userId || mc.user2 == userId) = true) :
    ∃ resp : MessagesPage,
      getMessages userId cid 1 limit db =
        (Except.ok resp,
         { db with messages := db.messages.map (markReadUpdate cid userId db.nextId),
                   nextId := db.nextId + 1 }) ∧
      resp.messages =
        ((sortByNewest (db.messages.filter (fun m => m.mutualConnection == cid))).take
          limit).reverse ∧
      List.Sorted (fun m1 m2 : MessageDoc => m1.createdAt ≤ m2.createdAt) resp.messages ∧
      (∀ x ∈ (sortByNewest (db.messages.filter (fun m => m.mutualConnection == cid))).drop limit,
        ∀ y ∈ resp.messages, x.createdAt ≤ y.createdAt) ∧
      resp.total = (db.messages.filter (fun m => m.mutualConnection == cid)).length := by
  have hs : List.Sorted newestFirst
      (sortByNewest (db.messages.filter (fun m => m.mutualConnection == cid))) :=
    List.sorted_insertionSort newestFirst _
  refine ⟨⟨((sortByNewest (db.messages.filter (fun m =>
      m.mutualConnection == cid))).take limit).reverse, 1, limit,
      (db.messages.filter (fun m => m.mutualConnection == cid)).length⟩, ?_, rfl, ?_, ?_, rfl⟩
  · unfold getMessages
    rw [hfind]
    dsimp only
    rw [if_pos hmem]
    simp
  · have ht : List.Sorted newestFirst ((sortByNewest (db.messages.filter (fun m =>
        m.mutualConnection == cid))).take limit) :=
      List.Pairwise.sublist (List.take_sublist limit _) hs
    exact List.pairwise_reverse.mpr ht
  · intro x hx y hy
    have hy2 : y ∈ (sortByNewest (db.messages.filter (fun m =>
        m.mutualConnection == cid))).take limit := List.mem_reverse.mp hy
    have hp := hs
    rw [← List.take_append_drop limit (sortByNewest (db.messages.filter (fun m =>
        m.mutualConnection == cid)))] at hp
    exact (List.pairwise_append.mp hp).2.2 y hy2 x hx

/-- Witness for C6 at concrete inputs. -/
theorem getMessages_spec_witness :
    ∃ resp : MessagesPage,
      getMessages "a" 0 1 50 dbMsgs =
        (Except.ok resp,
         { dbMsgs with messages := dbMsgs.messages.map (markReadUpdate 0 "a" dbMsgs.nextId),
                       nextId := dbMsgs.nextId + 1 }) ∧
      resp.messages =
        ((sortByNewest (dbMsgs.messages.filter (fun m => m.mutualConnection == 0))).take
          50).reverse ∧
      List.Sorted (fun m1 m2 : MessageDoc => m1.createdAt ≤ m2.createdAt) resp.messages ∧
      (∀ x ∈ (sortByNewest (dbMsgs.messages.filter (fun m => m.mutualConnection == 0))).drop 50,
        ∀ y ∈ resp.messages, x.createdAt ≤ y.createdAt) ∧
      resp.total = (dbMsgs.messages.filter (fun m => m.mutualConnection == 0)).length :=
  getMessages_spec "a" 0 50 dbMsgs ⟨0, "a", "b", "a_b", "alice & bob", true⟩ rfl rfl

/-!  Unread-count lifecycle. -/

theorem send_step (db : DB) (cid : Nat) (mc : MutualConnectionDoc) (sender c : String)
    (hfind : findConnection db cid = some mc)
    (hmem : (mc.user1 == sender || mc.user2 == sender) = true)
    (hct : jsTrim c ≠ "") :
    findConnection (sendMessage sender cid c "text" db).2 cid = some mc ∧
    unreadCount (sendMessage sender cid c "text" db).2 cid (otherMember mc sender) =
      unreadCount db cid (otherMember mc sender) + 1 := by
  have heq : (sendMessage sender cid c "text" db).2 =
      { db with
        messages := db.messages ++
          [⟨db.nextId, cid, sender, otherMember mc sender, jsTrim c, "text", false, none,
            db.nextId⟩],
        events := db.events ++
          [⟨Channel.personal (otherMember mc sender), "new-message", db.nextId⟩],
        nextId := db.nextId + 1 } := by
    unfold sendMessage
    rw [if_neg hct, hfind]
    dsimp only
    rw [if_pos hmem]
    simp [otherMember]
  rw [heq]
  constructor
  · exact hfind
  · unfold unreadCount
    dsimp only
    rw [List.filter_append]
    simp

theorem sendN_unread (cid : Nat) (mc : MutualConnectionDoc) (sender : String)
    (hmem : (mc.user1 == sender || mc.user2 == sender) = true) :
    ∀ (contents : List String) (db : DB),
      findConnection db cid = some mc →
      (∀ c ∈ contents, jsTrim c ≠ "") →
      findConnection (sendN sender cid contents db) cid = some mc ∧
      unreadCount (sendN sender cid contents db) cid (otherMember mc sender) =
        unreadCount db cid (otherMember mc sender) + contents.length := by
  intro contents
  induction contents with
  | nil =>
    intro db hfind _
    exact ⟨hfind, rfl⟩
  | cons c cs ih =>
    intro db hfind hct
    have hstep := send_step db cid mc sender c hfind hmem (hct c (List.mem_cons_self c cs))
    have hrec := ih ((sendMessage sender cid c "text" db).2) hstep.1
      (fun x hx => hct x (List.mem_cons_of_mem c hx))
    have hfold : sendN sender cid (c :: cs) db =
        sendN sender cid cs ((sendMessage sender cid c "text" db).2) := rfl
    rw [hfold]
    refine ⟨hrec.1, ?_⟩
    rw [hrec.2, hstep.2, List.length_cons]
    omega

/-- The computed receiver is itself a member of the connection. -/
theorem otherMember_mem (mc : MutualConnectionDoc) (sender : String) :
    (mc.user1 == otherMember mc sender || mc.user2 == otherMember mc sender) = true := by
  unfold otherMember
  cases h : mc.user1 == sender <;> simp [h]

/-- After the bulk read update, no message of the connection addressed to
the user remains unread. -/
theorem unread_after_mark (msgs : List MessageDoc) (cid : Nat) (uid : String) (now : Nat) :
    ((msgs.map (markReadUpdate cid uid now)).filter (fun m =>
      m.mutualConnection == cid && m.receiver == uid && m.isRead == false)).length = 0 := by
  rw [List.length_eq_zero]
  rw [List.filter_eq_nil_iff]
  intro y hy
  obtain ⟨x, hx, hxy⟩ := List.mem_map.mp hy
  subst hxy
  unfold markReadUpdate
  by_cases hc : (x.mutualConnection == cid && x.receiver == uid && x.isRead == false) = true
  · rw [if_pos hc]
    simp
  · rw [if_neg hc]
    exact fun hcon => hc hcon

theorem markRead_spec (userId : String) (cid : Nat) (db : DB) (mc : MutualConnectionDoc)
    (hfind : findConnection db cid = some mc)
    (hmem : (mc.user1 == userId || mc.user2 == userId) = true) :
    markMessagesAsRead userId cid db =
      (Except.ok (unreadCount db cid userId),
       { db with messages := db.messages.map (markReadUpdate cid userId db.nextId),
                 nextId := db.nextId + 1 }) := by
  unfold markMessagesAsRead
  rw [hfind]
  dsimp only
  rw [if_pos hmem]

theorem markReadUpdate_idem (cid : Nat) (uid : String) (now now2 : Nat) (m : MessageDoc) :
    markReadUpdate cid uid now2 (markReadUpdate cid uid now m) = markReadUpdate cid uid now m := by
  unfold markReadUpdate
  by_cases hc : (m.mutualConnection == cid && m.receiver == uid && m.isRead == false) = true
  · rw [if_pos hc]
    simp
  · rw [if_neg hc, if_neg hc]

/-- C7: on a connection between members A and B, where A is either
member and B is the other member (the receiver `sendMessage` computes),
with no prior unread messages for B, N sends from A leave B's unread
count at N; a markRead by B resets it to 0 and is idempotent on the
stored messages; and subsequent sends from A count up again from
zero. -/
theorem unread_count_lifecycle (db : DB) (cid : Nat) (mc : MutualConnectionDoc)
    (A : String) (contents contents2 : List String)
    (hfind : findConnection db cid = some mc)
    (hmemA : (mc.user1 == A || mc.user2 == A) = true)
    (hct : ∀ c ∈ contents, jsTrim c ≠ "")
    (hct2 : ∀ c ∈ contents2, jsTrim c ≠ "")
    (hzero : unreadCount db cid (otherMember mc A) = 0) :
    unreadCount (sendN A cid contents db) cid (otherMember mc A) = contents.length ∧
    unreadCount (markMessagesAsRead (otherMember mc A) cid
      (sendN A cid contents db)).2 cid (otherMember mc A) = 0 ∧
    ((markMessagesAsRead (otherMember mc A) cid (markMessagesAsRead (otherMember mc A) cid
        (sendN A cid contents db)).2).2).messages =
      ((markMessagesAsRead (otherMember mc A) cid (sendN A cid contents db)).2).messages ∧
    unreadCount (sendN A cid contents2
      (markMessagesAsRead (otherMember mc A) cid (sendN A cid contents db)).2) cid
      (otherMember mc A) = contents2.length := by
  have hmemB : (mc.user1 == otherMember mc A || mc.user2 == otherMember mc A) = true :=
    otherMember_mem mc A
  have h1 := sendN_unread cid mc A hmemA contents db hfind hct
  have hm1 := markRead_spec (otherMember mc A) cid (sendN A cid contents db) mc h1.1 hmemB
  have hm1db : (markMessagesAsRead (otherMember mc A) cid (sendN A cid contents db)).2 =
      { sendN A cid contents db with
        messages := (sendN A cid contents db).messages.map
          (markReadUpdate cid (otherMember mc A) (sendN A cid contents db).nextId),
        nextId := (sendN A cid contents db).nextId + 1 } :=
    congrArg Prod.snd hm1
  have hfindM : findConnection (markMessagesAsRead (otherMember mc A) cid
      (sendN A cid contents db)).2 cid = some mc := by
    rw [hm1db]
    exact h1.1
  have hzeroM : unreadCount (markMessagesAsRead (otherMember mc A) cid
      (sendN A cid contents db)).2 cid (otherMember mc A) = 0 := by
    rw [hm1db]
    unfold unreadCount
    dsimp only
    exact unread_after_mark _ cid (otherMember mc A) _
  refine ⟨?_, hzeroM, ?_, ?_⟩
  · rw [h1.2, hzero]
    omega
  · have hm2 := markRead_spec (otherMember mc A) cid (markMessagesAsRead (otherMember mc A) cid
      (sendN A cid contents db)).2 mc hfindM hmemB
    have hm2db := congrArg Prod.snd hm2
    rw [hm2db]
    dsimp only
    rw [hm1db]
    dsimp only
    rw [List.map_map]
    have hfun : (markReadUpdate cid (otherMember mc A)
          ({ sendN A cid contents db with
            messages := (sendN A cid contents db).messages.map
              (markReadUpdate cid (otherMember mc A) (sendN A cid contents db).nextId),
            nextId := (sendN A cid contents db).nextId + 1 } : DB).nextId) ∘
        (markReadUpdate cid (otherMember mc A) (sendN A cid contents db).nextId) =
        markReadUpdate cid (otherMember mc A) (sendN A cid contents db).nextId :=
      funext (fun m => markReadUpdate_idem cid (otherMember mc A) _ _ m)
    rw [hfun]
  · have h2 := sendN_unread cid mc A hmemA contents2 (markMessagesAsRead (otherMember mc A) cid
      (sendN A cid contents db)).2 hfindM hct2
    rw [h2.2, hzeroM]
    omega

/-- Witness for C7 at concrete inputs, exercising sends by each member of
the connection: two sends by user1 "a" (unread for "b"), markRead, a
further send by "a", and independently one send by user2 "b" (unread for
"a"). -/
theorem unread_count_lifecycle_witness :
    unreadCount (sendN "a" 0 ["m1", "m2"] dbConn) 0 "b" = 2 ∧
    unreadCount (markMessagesAsRead "b" 0 (sendN "a" 0 ["m1", "m2"] dbConn)).2 0 "b" = 0 ∧
    unreadCount (sendN "a" 0 ["m3"]
      (markMessagesAsRead "b" 0 (sendN "a" 0 ["m1", "m2"] dbConn)).2) 0 "b" = 1 ∧
    unreadCount (sendN "b" 0 ["m4"] dbConn) 0 "a" = 1 := by
  have h := unread_count_lifecycle dbConn 0 ⟨0, "a", "b", "a_b", "alice & bob", true⟩
    "a" ["m1", "m2"] ["m3"] rfl rfl (by decide) (by decide) rfl
  have h2 := unread_count_lifecycle dbConn 0 ⟨0, "a", "b", "a_b", "alice & bob", true⟩
    "b" ["m4"] [] rfl rfl (by decide) (by decide) rfl
  exact ⟨h.1, h.2.1, h.2.2.2, h2.1⟩

end BondBook
